import Mathlib

/-!
# Verification of the container-return kiosk controller

A shallow embedding, in Lean 4, of the parts of the controller that the
specification's testable claims are about:

* the UART frame codec (`src/uart/uart.py`, class `UARTProtocol`);
* the sequence engine and its link layer (`src/uart/uart.py`, class `UART`):
  message dispatch, `wait_for_ack`, the mode gates, SEQ1–SEQ3 and the SEQ4
  removal wait;
* the QR validator (`src/qr/processor.py`, class `QRProcessor`);
* the offline validation fallback (`UART._handle_offline_fallback`);
* the sync service (`src/api/service.py`: `_do_sync`, `_check_secure_mode`);
* the container store adapter (`src/database/crud.py`, `ContainerCRUD.update`).

Conventions of the embedding:

* Python `bytes` values are `List Nat` with every element below 256.
* Wall-clock time is a number (`Nat` engine-side, `Int` seconds in the sync
  service); bounded waiting loops are driven by a fuel parameter and by the
  stream of receive batches: an exhausted stream or exhausted fuel stands for
  the loop's timeout elapsing.
* The serial port is modelled by a stream of incoming message batches
  (successive results of `receive_messages`) inside the engine state, and by
  an ordered trace `output` of every message written to the port.  Serial
  writes are assumed to succeed (the port is connected), as in the
  specification's happy-path link model.
* External library calls (HMAC-SHA256, the HTTP client, SQLite) are
  parameters of the functions that use them; everything the repository
  itself computes is defined executably below.
-/

/-! ## Frame codec (`UARTProtocol`) -/

/-- Message types of the wire protocol (enum `MessageType`). -/
inductive MessageType where
  | ACK
  | GET_SENSOR_STATUS
  | SENSOR_STATE_CHANGE
  | RESTART
  | ACTUATOR_MOVEMENT
  | LIGHT_MANAGEMENT
  | BUTTON_PUSHED
  | ERROR_MSG
  | DOOR_CONTROL
  deriving DecidableEq, Repr

/-- Numeric value of a message type (the enum's value). -/
def MessageType.toByte : MessageType → Nat
  | .ACK => 0x00
  | .GET_SENSOR_STATUS => 0x01
  | .SENSOR_STATE_CHANGE => 0x02
  | .RESTART => 0x03
  | .ACTUATOR_MOVEMENT => 0x04
  | .LIGHT_MANAGEMENT => 0x05
  | .BUTTON_PUSHED => 0x06
  | .ERROR_MSG => 0x07
  | .DOOR_CONTROL => 0x08

/-- `MessageType(b)`: reconstructing a message type from its byte; `none`
models the `ValueError` raised on an unknown type byte. -/
def MessageType.ofByte : Nat → Option MessageType
  | 0x00 => some .ACK
  | 0x01 => some .GET_SENSOR_STATUS
  | 0x02 => some .SENSOR_STATE_CHANGE
  | 0x03 => some .RESTART
  | 0x04 => some .ACTUATOR_MOVEMENT
  | 0x05 => some .LIGHT_MANAGEMENT
  | 0x06 => some .BUTTON_PUSHED
  | 0x07 => some .ERROR_MSG
  | 0x08 => some .DOOR_CONTROL
  | _ => none

/-- Dataclass `UARTMessage`.  `payload` is a Python `bytes` value, modelled
as a list of naturals below 256. -/
structure UARTMessage where
  msg_type : MessageType
  msg_id : Nat
  payload : List Nat
  deriving DecidableEq, Repr

namespace UARTProtocol

/-- `UARTProtocol.START_BYTE`. -/
def START_BYTE : Nat := 0x7B

/-- `UARTProtocol.END_BYTE`. -/
def END_BYTE : Nat := 0x7D

/-- `UARTProtocol.validate_message`.  The type-validity check
`MessageType(message.msg_type)` always succeeds here because `msg_type`
is already a member of the enum. -/
def validate_message (m : UARTMessage) : Bool :=
  decide (m.msg_id ≤ 99) && decide (m.payload.length ≤ 255)

/-- `UARTProtocol.encode_message`: START + TYPE + ID + LENGTH + PAYLOAD
+ END.  `none` models the `ValueError` raised on an invalid message. -/
def encode_message (m : UARTMessage) : Option (List Nat) :=
  if validate_message m then
    some (START_BYTE :: m.msg_type.toByte :: m.msg_id :: m.payload.length ::
      (m.payload ++ [END_BYTE]))
  else none

/-- `UARTProtocol.validate_frame`. -/
def validate_frame (frame : List Nat) : Bool :=
  if frame.length < 5 then false
  else if frame.headD 0 ≠ START_BYTE then false
  else if frame.getLastD 0 ≠ END_BYTE then false
  else if frame.length ≠ 5 + frame.getD 3 0 then false
  else true

/-- `UARTProtocol.decode_frame`.  After `validate_frame` the source reads
`frame[1]` (type, `none` on unknown byte), `frame[2]` (id), `frame[3]`
(payload length) and the payload slice `frame[4:4+payload_length]`. -/
def decode_frame (frame : List Nat) : Option UARTMessage :=
  if validate_frame frame then
    match MessageType.ofByte (frame.getD 1 0) with
    | some t => some ⟨t, frame.getD 2 0, (frame.drop 4).take (frame.getD 3 0)⟩
    | none => none
  else none

/-- `UARTProtocol.create_ack`: ACK with payload `[orig_type, orig_id]`,
its own id fixed to 0. -/
def create_ack (original : UARTMessage) : UARTMessage :=
  ⟨.ACK, 0, [original.msg_type.toByte, original.msg_id]⟩

end UARTProtocol

/-! ## Sequence engine state (`class UART` and the two mode flags of
`ContainerReturnSystem` that its device-inactive callback reads) -/

/-- The mutable state of the `UART` engine object, together with:

* `deviceInactive` / `secureMode`: the two booleans of the main application
  that the registered callback `lambda: self.device_inactive or
  self.device_secure_mode` reads (`src/main.py`, `initialize_components`);
* `input`: the remaining stream of `receive_messages()` batches the serial
  port will deliver (an exhausted stream models a wait timing out);
* `output`: the ordered trace of messages written to the port so far;
* `pendingQr`: the QR string the scanner hand-off will deliver during the
  SEQ3 wait, if any;
* `qrValidationResult`: the outcome `_validate_container_qr` will produce
  for that QR (the validator itself is embedded separately below);
* `now`: the current wall-clock reading used for the sequence
  timestamps. -/
structure EngineState where
  message_id_counter : Nat
  waitingForAck : Bool
  lastAckId : Option Nat
  sensorCover : Bool
  sensorContainer : Bool
  seq1LightsActive : Bool
  seq1ActivationTime : Option Nat
  seq2Completed : Bool
  seq2CompletionTime : Option Nat
  seq3Completed : Bool
  seq3CompletionTime : Option Nat
  seq4InProgress : Bool
  waitingForQr : Bool
  containerQrCode : Option String
  deviceInactive : Bool
  secureMode : Bool
  input : List (List UARTMessage)
  output : List UARTMessage
  pendingQr : Option String
  qrValidationResult : Bool
  now : Nat
  deriving DecidableEq, Repr

namespace UART

/-- `UART._is_device_inactive`: the callback installed by `main.py` returns
`device_inactive or device_secure_mode`. -/
def is_device_inactive (s : EngineState) : Bool :=
  s.deviceInactive || s.secureMode

/-- `UART.send_message`: assign the next id (`(counter + 1) % 100`) and
write the encoded frame.  The write is assumed to succeed. -/
def send_message (s : EngineState) (t : MessageType) (payload : List Nat) :
    EngineState :=
  let c := (s.message_id_counter + 1) % 100
  { s with message_id_counter := c, output := s.output ++ [⟨t, c, payload⟩] }

/-- `UART.send_ack`: write the ACK frame for a received message (id 0,
payload `[orig_type, orig_id]`); the id counter is not advanced. -/
def send_ack (s : EngineState) (original : UARTMessage) : EngineState :=
  { s with output := s.output ++ [UARTProtocol.create_ack original] }

/-- `UART.control_light` (payload `[position, light_color, light_type]`). -/
def control_light (s : EngineState) (pos color ltype : Nat) : EngineState :=
  send_message s .LIGHT_MANAGEMENT [pos, color, ltype]

/-- `UART.control_door` (payload `[action]`; 0 = block, 1 = unblock). -/
def control_door (s : EngineState) (action : Nat) : EngineState :=
  send_message s .DOOR_CONTROL [action]

/-- `UART.unblock_doors`. -/
def unblock_doors (s : EngineState) : EngineState := control_door s 1

/-- `UART.block_doors`. -/
def block_doors (s : EngineState) : EngineState := control_door s 0

/-- `UART.set_cover_light_white` (cover = position 1, white = 0, steady). -/
def set_cover_light_white (s : EngineState) : EngineState :=
  control_light s 1 0 0

/-- `UART.set_container_light_white` (container = position 0). -/
def set_container_light_white (s : EngineState) : EngineState :=
  control_light s 0 0 0

/-- `UART.set_cover_light_green` (green = 2). -/
def set_cover_light_green (s : EngineState) : EngineState :=
  control_light s 1 2 0

/-- `UART.set_container_light_green`. -/
def set_container_light_green (s : EngineState) : EngineState :=
  control_light s 0 2 0

/-- `UART.set_container_light_red` (red = 1). -/
def set_container_light_red (s : EngineState) : EngineState :=
  control_light s 0 1 0

/-- `UART.set_error_state`: red container light. -/
def set_error_state (s : EngineState) : EngineState :=
  set_container_light_red s

/-- `UART._handle_ack`: record the ACK and stop waiting. -/
def handle_ack (s : EngineState) (m : UARTMessage) : EngineState :=
  { s with lastAckId := some m.msg_id, waitingForAck := false }

/-- `UART._handle_error_message`: log the text and set the error state
(the red-light command is the externally observable effect). -/
def handle_error_message (s : EngineState) (_m : UARTMessage) : EngineState :=
  set_error_state s

/-- The entry prologue of `UART.wait_for_ack`:
`self._waiting_for_ack = True; self._last_ack_id = None`. -/
def begin_wait_for_ack (s : EngineState) : EngineState :=
  { s with waitingForAck := true, lastAckId := none }

mutual

/-- The waiting loop of `UART.wait_for_ack`: while still waiting, drain one
`receive_messages()` batch per iteration and process it with the
non-dispatcher handlers.  Exhausted fuel or an exhausted input stream models
the timeout elapsing with `_waiting_for_ack` still true. -/
def wait_for_ack_loop : Nat → EngineState → EngineState
  | 0, s => s
  | f + 1, s =>
    if ¬ s.waitingForAck then s
    else
      match s.input with
      | [] => s
      | b :: rest => wait_for_ack_loop f (handle_wait_batch f { s with input := rest } b)
  termination_by f _ => (f, 0, 0)

/-- One batch of the `wait_for_ack` loop body (the `for message in
messages` loop). -/
def handle_wait_batch : Nat → EngineState → List UARTMessage → EngineState
  | _, s, [] => s
  | f, s, m :: ms => handle_wait_batch f (handle_wait_msg f s m) ms
  termination_by f _ ms => (f, 7, ms.length)

/-- The per-message body of the `wait_for_ack` loop (`uart.py` lines
539–558): ACKs are recorded; sensor changes, button presses and error
messages are handled by their full handlers *and then* ACKed; every other
non-ACK message is ACKed. -/
def handle_wait_msg : Nat → EngineState → UARTMessage → EngineState
  | f, s, m =>
    match m.msg_type with
    | .ACK => handle_ack s m
    | .SENSOR_STATE_CHANGE => send_ack (handle_sensor_change f s m) m
    | .BUTTON_PUSHED => send_ack (handle_button_press f s m) m
    | .ERROR_MSG => send_ack (handle_error_message s m) m
    | _ => send_ack s m
  termination_by f _ _ => (f, 6, 0)

/-- `UART._handle_button_press`: drop the event when the device-inactive
callback reports a gate, otherwise run SEQ1. -/
def handle_button_press : Nat → EngineState → UARTMessage → EngineState
  | f, s, _ =>
    if is_device_inactive s then s
    else (execute_sequence_1 f s).2
  termination_by f _ _ => (f, 5, 0)

/-- `UART._handle_sensor_change`: with a well-formed payload, drop the
event under a mode gate; otherwise update sensor tracking and start SEQ2 on
cover detection or SEQ3 on container detection. -/
def handle_sensor_change : Nat → EngineState → UARTMessage → EngineState
  | f, s, m =>
    if 2 ≤ m.payload.length then
      let stype := m.payload.getD 0 0
      let nstat := m.payload.getD 1 0
      if is_device_inactive s then s
      else
        let s :=
          if stype = 0 then { s with sensorCover := nstat = 1 }
          else if stype = 1 then { s with sensorContainer := nstat = 1 }
          else s
        if stype = 0 ∧ nstat = 1 then (execute_sequence_2 f s).2
        else if stype = 1 ∧ nstat = 1 then (execute_sequence_3 f s).2
        else s
    else s
  termination_by f _ _ => (f, 5, 0)

/-- `UART._execute_sequence_1` (SEQ1, button activation): unblock doors,
await ACK; sleep 1 s; block doors, await ACK; cover light white, await ACK;
container light white, await ACK; then mark the lights active.  Each failed
wait returns `False` at once. -/
def execute_sequence_1 : Nat → EngineState → Bool × EngineState
  | f, s =>
    let s := unblock_doors s
    let s := wait_for_ack_loop f (begin_wait_for_ack s)
    if s.waitingForAck then (false, s)
    else
      let s := block_doors s
      let s := wait_for_ack_loop f (begin_wait_for_ack s)
      if s.waitingForAck then (false, s)
      else
        let s := set_cover_light_white s
        let s := wait_for_ack_loop f (begin_wait_for_ack s)
        if s.waitingForAck then (false, s)
        else
          let s := set_container_light_white s
          let s := wait_for_ack_loop f (begin_wait_for_ack s)
          if s.waitingForAck then (false, s)
          else
            (true, { s with seq1LightsActive := true,
                            seq1ActivationTime := some s.now })
  termination_by f _ => (f, 4, 0)

/-- `UART._execute_sequence_2` (SEQ2, cover accepted). -/
def execute_sequence_2 : Nat → EngineState → Bool × EngineState
  | f, s =>
    let s :=
      if s.seq1LightsActive then
        { s with seq1LightsActive := false, seq1ActivationTime := none }
      else s
    let s := set_cover_light_green s
    let s := wait_for_ack_loop f (begin_wait_for_ack s)
    if s.waitingForAck then (false, s)
    else
      (true, { s with seq2Completed := true,
                      seq2CompletionTime := some s.now })
  termination_by f _ => (f, 4, 0)

/-- `UART._execute_sequence_3` (SEQ3, container scan): wait for the QR
hand-off (no serial frames are drained during this wait), then take the
valid or invalid branch according to `_validate_container_qr`'s outcome. -/
def execute_sequence_3 : Nat → EngineState → Bool × EngineState
  | f, s =>
    let s :=
      if s.seq1LightsActive then
        { s with seq1LightsActive := false, seq1ActivationTime := none }
      else s
    let s := { s with waitingForQr := true, containerQrCode := none }
    let s :=
      match s.pendingQr with
      | some q => { s with containerQrCode := some q, waitingForQr := false,
                           pendingQr := none }
      | none => s
    match s.containerQrCode with
    | none => handle_seq3_invalid_qr f s
    | some _ =>
      if s.qrValidationResult then handle_seq3_valid_qr f s
      else handle_seq3_invalid_qr f s
  termination_by f _ => (f, 4, 0)

/-- `UART._handle_seq3_valid_qr`: green container light, await ACK, mark
SEQ3 complete. -/
def handle_seq3_valid_qr : Nat → EngineState → Bool × EngineState
  | f, s =>
    let s := set_container_light_green s
    let s := wait_for_ack_loop f (begin_wait_for_ack s)
    if s.waitingForAck then (false, s)
    else
      (true, { s with seq3Completed := true,
                      seq3CompletionTime := some s.now })
  termination_by f _ => (f, 3, 0)

/-- `UART._handle_seq3_invalid_qr`: red container light, await ACK, mark
SEQ3 complete. -/
def handle_seq3_invalid_qr : Nat → EngineState → Bool × EngineState
  | f, s =>
    let s := set_container_light_red s
    let s := wait_for_ack_loop f (begin_wait_for_ack s)
    if s.waitingForAck then (false, s)
    else
      (true, { s with seq3Completed := true,
                      seq3CompletionTime := some s.now })
  termination_by f _ => (f, 3, 0)

end

/-- `UART.wait_for_ack`: set the waiting flags, run the loop, and report
whether the flag was cleared by an ACK. -/
def wait_for_ack (f : Nat) (s : EngineState) : Bool × EngineState :=
  let s := wait_for_ack_loop f (begin_wait_for_ack s)
  (!s.waitingForAck, s)

/-- `UART._process_message` (the top-level dispatcher): ACK every non-ACK
message first, then run the handler registered for its type (button,
sensor change, error, ACK); other types have no handler. -/
def process_message (f : Nat) (s : EngineState) (m : UARTMessage) :
    EngineState :=
  let s := if m.msg_type ≠ .ACK then send_ack s m else s
  match m.msg_type with
  | .BUTTON_PUSHED => handle_button_press f s m
  | .SENSOR_STATE_CHANGE => handle_sensor_change f s m
  | .ERROR_MSG => handle_error_message s m
  | .ACK => handle_ack s m
  | _ => s

/-- The per-message body of `UART._wait_for_both_removals`: a sensor
message with a well-formed payload updates the removal flags and tracking
and is ACKed; any other non-ACK message is ACKed; ACK messages are
ignored.  Returns the new state and the two removal flags. -/
def removal_wait_msg (s : EngineState) (cover container : Bool)
    (m : UARTMessage) : EngineState × Bool × Bool :=
  if m.msg_type = .SENSOR_STATE_CHANGE ∧ 2 ≤ m.payload.length then
    let stype := m.payload.getD 0 0
    let nstat := m.payload.getD 1 0
    if stype = 0 ∧ nstat = 0 then
      (send_ack { s with sensorCover := false } m, true, container)
    else if stype = 1 ∧ nstat = 0 then
      (send_ack { s with sensorContainer := false } m, cover, true)
    else (send_ack s m, cover, container)
  else if m.msg_type ≠ .ACK then (send_ack s m, cover, container)
  else (s, cover, container)

/-- One batch of the `_wait_for_both_removals` loop. -/
def removal_wait_batch (s : EngineState) (cover container : Bool) :
    List UARTMessage → EngineState × Bool × Bool
  | [] => (s, cover, container)
  | m :: ms =>
    let r := removal_wait_msg s cover container m
    removal_wait_batch r.1 r.2.1 r.2.2 ms

/-- The loop of `UART._wait_for_both_removals`. -/
def removal_wait_loop : Nat → EngineState → Bool → Bool →
    EngineState × Bool × Bool
  | 0, s, cover, container => (s, cover, container)
  | f + 1, s, cover, container =>
    if cover ∧ container then (s, cover, container)
    else
      match s.input with
      | [] => (s, cover, container)
      | b :: rest =>
        let r := removal_wait_batch { s with input := rest } cover container b
        removal_wait_loop f r.1 r.2.1 r.2.2

/-- `UART._wait_for_both_removals`: success iff both sensors reported
absent before the timeout. -/
def wait_for_both_removals (f : Nat) (s : EngineState) : Bool × EngineState :=
  let r := removal_wait_loop f s false false
  (r.2.1 && r.2.2, r.1)

end UART

/-! ## QR validator (`QRProcessor`) -/

/-- Enum `ValidationResult` (the members the processor can produce). -/
inductive ValidationResult where
  | VALID
  | INVALID_FORMAT
  | FRAUD_ATTEMPT
  deriving DecidableEq, Repr

/-- The fields of `QRProcessingResult` that carry the decision (the free-text
error message, timing and parsed-URL echo fields are elided). -/
structure QRProcessingResult where
  validation : ValidationResult
  container_id : Option (List Char)
  is_fraud_attempt : Bool
  deriving DecidableEq, Repr

namespace QRProcessor

/-- Case-insensitive character comparison, as `re.IGNORECASE` folds ASCII
letters. -/
def eqCI (a b : Char) : Bool := a.toUpper = b.toUpper

/-- The character class `[A-HJ-NP-Z2-9]` under `re.IGNORECASE`. -/
def isCodeChar (c : Char) : Bool :=
  let u := c.toUpper
  ('A' ≤ u && u ≤ 'H') || ('J' ≤ u && u ≤ 'N') || ('P' ≤ u && u ≤ 'Z') ||
    ('2' ≤ u && u ≤ '9')

/-- The character class `[A-Z0-9]` under `re.IGNORECASE`. -/
def isHashChar (c : Char) : Bool :=
  let u := c.toUpper
  ('A' ≤ u && u ≤ 'Z') || ('0' ≤ u && u ≤ '9')

/-- The whitespace stripped by `str.strip` (ASCII range). -/
def pySpaceChars : List Char := [' ', '\t', '\n', '\r', '\x0b', '\x0c']

/-- Membership in `pySpaceChars`. -/
def isPySpace (c : Char) : Bool := pySpaceChars.contains c

/-- `str.strip()`: drop whitespace from both ends. -/
def pyStrip (cs : List Char) : List Char :=
  (((cs.dropWhile isPySpace).reverse).dropWhile isPySpace).reverse

/-- Case-insensitive literal matching: consume `lit` from the front of the
input, returning the rest. -/
def matchLit : List Char → List Char → Option (List Char)
  | [], cs => some cs
  | _ :: _, [] => none
  | l :: ls, c :: cs => if eqCI c l then matchLit ls cs else none

/-- Consume exactly `n` characters of class `p`, returning them and the
rest. -/
def takeClass (p : Char → Bool) : Nat → List Char → Option (List Char × List Char)
  | 0, cs => some ([], cs)
  | _ + 1, [] => none
  | n + 1, c :: cs =>
    if p c then (takeClass p n cs).map (fun g => (c :: g.1, g.2)) else none

/-- The literal `http` of the URL pattern. -/
def httpLit : List Char := ['h', 't', 't', 'p']

/-- The literal `://paka.eco/QR/` of the URL pattern. -/
def schemeLit : List Char :=
  [':', '/', '/', 'p', 'a', 'k', 'a', '.', 'e', 'c', 'o', '/', 'Q', 'R', '/']

/-- The anchored tail `https?://paka\.eco/QR/([A-HJ-NP-Z2-9]{6})/([A-Z0-9]{6})$`
of the compiled pattern, applied after the leading `.*`.  On success the two
groups are returned upper-cased, as in `_parse_scanned_url`. -/
def parseTail (cs : List Char) : Option (List Char × List Char) :=
  match matchLit httpLit cs with
  | none => none
  | some cs1 =>
    let cs2 :=
      match cs1 with
      | c :: rest => if eqCI c 's' then rest else c :: rest
      | [] => []
    match matchLit schemeLit cs2 with
    | none => none
    | some cs3 =>
      match takeClass isCodeChar 6 cs3 with
      | none => none
      | some (code, cs4) =>
        match cs4 with
        | '/' :: cs5 =>
          (match takeClass isHashChar 6 cs5 with
           | some (hash, []) => some (code.map Char.toUpper, hash.map Char.toUpper)
           | _ => none)
        | _ => none

/-- `self.url_pattern.match(url)`: the leading `.*` matches any prefix not
containing a newline, and a successful match must place the fixed-length
tail (32 characters for `http`, 33 for `https`) at the very end of the
string.  At most one of the two suffix lengths can match, so trying both is
exact. -/
def urlMatch (cs : List Char) : Option (List Char × List Char) :=
  let n := cs.length
  let att : Nat → Option (List Char × List Char) := fun k =>
    if k ≤ n && (cs.take (n - k)).all (fun c => c ≠ '\n') then
      parseTail (cs.drop (n - k))
    else none
  (att 33).orElse fun _ => att 32

/-- `QRProcessor._generate_hmac_hash`, parameterized by the HMAC-SHA256
digest (a Python `hmac`/`hashlib` library call; it returns 32 bytes): the
first 6 characters of the upper-cased standard Base32 encoding of the
digest.  Base32 (`base64.b32encode`) is expanded below. -/
def byteBits (b : Nat) : List Bool :=
  [b.testBit 7, b.testBit 6, b.testBit 5, b.testBit 4,
   b.testBit 3, b.testBit 2, b.testBit 1, b.testBit 0]

/-- Value of a big-endian bit string. -/
def bitsVal (bs : List Bool) : Nat :=
  bs.foldl (fun a b => 2 * a + (if b then 1 else 0)) 0

/-- The RFC 4648 Base32 alphabet. -/
def b32alphabet : List Char :=
  ['A', 'B', 'C', 'D', 'E', 'F', 'G', 'H', 'I', 'J', 'K', 'L', 'M',
   'N', 'O', 'P', 'Q', 'R', 'S', 'T', 'U', 'V', 'W', 'X', 'Y', 'Z',
   '2', '3', '4', '5', '6', '7']

/-- Split a bit string into 5-bit values, zero-padding the last group. -/
def chunk5 : List Bool → List Nat
  | [] => []
  | [b0] => [bitsVal [b0, false, false, false, false]]
  | [b0, b1] => [bitsVal [b0, b1, false, false, false]]
  | [b0, b1, b2] => [bitsVal [b0, b1, b2, false, false]]
  | [b0, b1, b2, b3] => [bitsVal [b0, b1, b2, b3, false]]
  | b0 :: b1 :: b2 :: b3 :: b4 :: rest =>
    bitsVal [b0, b1, b2, b3, b4] :: chunk5 rest

/-- `base64.b32encode` on a byte string: 5-bit groups mapped through the
alphabet, `=`-padded to a multiple of 8 characters. -/
def b32encode (bytes : List Nat) : List Char :=
  let chars := (chunk5 (bytes.map byteBits).flatten).map fun v =>
    b32alphabet.getD v 'A'
  chars ++ List.replicate ((8 - chars.length % 8) % 8) '='

/-- `QRProcessor._generate_hmac_hash` proper: `base64.b32encode(
hmac.new(private_key, code, sha256).digest())[:6].upper()`.  The digest of
the configured private key is the parameter `hmacDigest`. -/
def generate_hmac_hash (hmacDigest : List Char → List Nat)
    (code : List Char) : List Char :=
  ((b32encode (hmacDigest code)).take 6).map Char.toUpper

/-- `QRProcessor.process_qr_code`: strip, match the URL pattern (failure is
classified as a fraud attempt), verify the HMAC hash (mismatch is a fraud
attempt), otherwise return `VALID` with the extracted code as the container
id. -/
def process_qr_code (hmacDigest : List Char → List Nat) (qr : List Char) :
    QRProcessingResult :=
  let qr := pyStrip qr
  match urlMatch qr with
  | none => ⟨.FRAUD_ATTEMPT, none, true⟩
  | some (code, providedHash) =>
    if providedHash ≠ generate_hmac_hash hmacDigest code then
      ⟨.FRAUD_ATTEMPT, none, true⟩
    else ⟨.VALID, some code, false⟩

/-- The canonical URL `https://paka.eco/QR/<CODE>/<HASH>` of the claim. -/
def construct_url (code hash : List Char) : List Char :=
  httpLit ++ 's' :: schemeLit ++ code ++ '/' :: hash

/-- The upper-case alphabet `A-HJ-NP-Z2-9` the claim draws codes from. -/
def upperCodeAlphabet : List Char :=
  ['A', 'B', 'C', 'D', 'E', 'F', 'G', 'H', 'J', 'K', 'L', 'M', 'N',
   'P', 'Q', 'R', 'S', 'T', 'U', 'V', 'W', 'X', 'Y', 'Z',
   '2', '3', '4', '5', '6', '7', '8', '9']

end QRProcessor

/-! ## Offline validation fallback (`UART._handle_offline_fallback`) -/

/-- Audit-log kinds (enum `LogType`; the two kinds this path writes). -/
inductive LogKind where
  | RETURN_VALID
  | RETURN_INVALID
  deriving DecidableEq, Repr

/-- An audit entry as written through `AuditLogger.log_return_valid` /
`log_return_invalid` (the free-text description is elided). -/
structure OfflineAudit where
  kind : LogKind
  container_id : String
  is_offline : Bool
  deriving DecidableEq, Repr

/-- A local `Container` row as read by the fallback (times in seconds). -/
structure OfflineContainer where
  id : String
  is_returnable : Bool
  due_date : Option Int
  deriving DecidableEq, Repr

/-- `UART._handle_offline_fallback`, with the store lookup
`containers.get_by_qr_code` as a parameter: returns the accept decision and
the audit entries written.  A missing container is rejected with a log-line
warning only; a non-returnable or expired container is rejected with an
offline `RETURN_INVALID` audit; otherwise the return is accepted with an
offline `RETURN_VALID` audit. -/
def handle_offline_fallback (get_by_qr_code : String → Option OfflineContainer)
    (now : Int) (qr : String) : Bool × List OfflineAudit :=
  match get_by_qr_code qr with
  | none => (false, [])
  | some c =>
    if ¬ c.is_returnable then
      (false, [⟨.RETURN_INVALID, c.id, true⟩])
    else
      match c.due_date with
      | some due =>
        if due < now then (false, [⟨.RETURN_INVALID, c.id, true⟩])
        else (true, [⟨.RETURN_VALID, c.id, true⟩])
      | none => (true, [⟨.RETURN_VALID, c.id, true⟩])

/-! ## Sync service (`APIService._do_sync`, `_check_secure_mode`) -/

/-- A local `Container` row as the sync service sees it. -/
structure SyncContainer where
  id : String
  qr_code : String
  is_returnable : Bool
  due_date : Option Int
  updated_at : Int
  deriving DecidableEq, Repr

/-- A local `AuditLog` row as the sync service sees it. -/
structure SyncLog where
  id : String
  container_id : Option String
  created_at : Int
  deriving DecidableEq, Repr

/-- The `DeviceStatus` singleton row (fields the embedded operations read). -/
structure DeviceStatusRow where
  last_sync_at : Int
  last_seen_at : Int
  is_in_safe_mode : Bool
  deriving DecidableEq, Repr

/-- The local store as the sync service sees it. -/
structure SyncDB where
  containers : List SyncContainer
  logs : List SyncLog
  status : Option DeviceStatusRow
  deriving DecidableEq, Repr

/-- One container object of a successful `raspberry-sync` response. -/
structure ServerContainer where
  id : String
  qrCode : String
  isReturnable : Bool
  dueTime : Option Int
  deriving DecidableEq, Repr

/-- `APIService._update_containers`: delete every local container, then
insert each response record that has a non-empty id and qrCode via
`create_with_id`, which stamps `updatedAt = utcnow()`. -/
def update_containers (data : List ServerContainer) (now : Int) :
    List SyncContainer :=
  (data.filter fun d => d.id ≠ "" && d.qrCode ≠ "").map fun d =>
    ⟨d.id, d.qrCode, d.isReturnable, d.dueTime, now⟩

/-- `APIService._do_sync`.  The HTTP exchange is the parameter `server`
(`none` models a transport failure or a non-success response, in which case
nothing local changes).  Returns the new store plus the logs and containers
actually included in the request body.

* cutoff: the stored `last_sync_at`, or the Unix epoch when no device
  status row exists;
* `containers.get_since` selects `updatedAt > cutoff`; `audit_logs.
  get_logs_since` selects `createdAt >= cutoff`;
* the request drops logs whose `container_id` is null (`filtered_logs`),
  but on success the deletion loop runs over `logs`, i.e. over every row
  read since the cutoff;
* containers are replaced from the response and `last_sync_at` is set to
  the time captured before the reads (the singleton `UPDATE` is a no-op
  when no status row exists). -/
def do_sync (db : SyncDB) (now : Int)
    (server : Option (List ServerContainer)) :
    SyncDB × List SyncLog × List SyncContainer :=
  let cutoff : Int :=
    match db.status with
    | some st => st.last_sync_at
    | none => 0
  let new_sync_time := now
  let containers := db.containers.filter fun c => cutoff < c.updated_at
  let logs := db.logs.filter fun l => cutoff ≤ l.created_at
  let filtered_logs := logs.filter fun l => l.container_id ≠ none
  match server with
  | none => (db, filtered_logs, containers)
  | some data =>
    let syncedIds := logs.map (·.id)
    let db := { db with logs := db.logs.filter fun l => ¬ syncedIds.contains l.id }
    let db := { db with containers := update_containers data now }
    let db := { db with
      status := db.status.map fun st => { st with last_sync_at := new_sync_time } }
    (db, filtered_logs, containers)

/-- `timedelta(days=2)` in seconds. -/
def SECURE_MODE_THRESHOLD : Int := 172800

/-- `APIService._check_secure_mode`.  `lastStatus` is the in-memory
`_last_secure_mode_status` (None before the first evaluation).  Returns the
new store, the callback invocation (`some b` iff the callback was called
with `b`) and the new `_last_secure_mode_status`. -/
def check_secure_mode (db : SyncDB) (lastStatus : Option Bool) (now : Int) :
    SyncDB × Option Bool × Option Bool :=
  let should_be_secure :=
    match db.status with
    | none => false
    | some st => decide (now - st.last_seen_at > SECURE_MODE_THRESHOLD)
  let current_secure_status :=
    match db.status with
    | some st => st.is_in_safe_mode
    | none => false
  let db :=
    if current_secure_status ≠ should_be_secure then
      { db with status := db.status.map fun st =>
          { st with is_in_safe_mode := should_be_secure } }
    else db
  let fired :=
    match lastStatus with
    | some b => if b ≠ should_be_secure then some should_be_secure else none
    | none => none
  (db, fired, some should_be_secure)

/-! ## Container store adapter (`ContainerCRUD.update`) -/

/-- A `Container` table row (timestamps in seconds). -/
structure ContainerRow where
  id : String
  qrCode : String
  isReturnable : Bool
  dueDate : Option Int
  updatedAt : Int
  deriving DecidableEq, Repr

/-- A value of the Python update dictionary. -/
inductive UpdVal where
  | vInt (n : Int)
  | vBool (b : Bool)
  | vStr (s : String)
  | vNone
  deriving DecidableEq, Repr

/-- Python truthiness of an update value. -/
def UpdVal.truthy : UpdVal → Bool
  | .vInt _ => true
  | .vBool b => b
  | .vStr s => s ≠ ""
  | .vNone => false

/-- `updates["updatedAt"] = value`: dictionary assignment (replace the
value in place when the key exists, append otherwise). -/
def dictSet (d : List (String × UpdVal)) (k : String) (v : UpdVal) :
    List (String × UpdVal) :=
  if d.any fun p => p.1 = k then
    d.map fun p => if p.1 = k then (k, v) else p
  else d ++ [(k, v)]

/-- One recognised `SET` clause of the dynamic update query. -/
inductive SetClause where
  | dueDate (v : UpdVal)
  | isReturnable (b : Bool)
  | qrCode (v : UpdVal)
  | updatedAt (v : UpdVal)
  deriving DecidableEq, Repr

/-- The clause-building loop body (`for field, value in updates.items()`):
`due_date` only when truthy; `is_returnable` stored as its truthiness;
`qr_code` and `updatedAt` verbatim; anything else contributes nothing. -/
def toClause : String × UpdVal → Option SetClause
  | ("due_date", v) => if v.truthy then some (.dueDate v) else none
  | ("is_returnable", v) => some (.isReturnable v.truthy)
  | ("qr_code", v) => some (.qrCode v)
  | ("updatedAt", v) => some (.updatedAt v)
  | _ => none

/-- Apply one `SET` clause to a row (values of the wrong shape leave the
column unchanged; the source only ever supplies well-shaped values). -/
def applyClause (r : ContainerRow) : SetClause → ContainerRow
  | .dueDate (.vInt n) => { r with dueDate := some n }
  | .dueDate _ => r
  | .isReturnable b => { r with isReturnable := b }
  | .qrCode (.vStr s) => { r with qrCode := s }
  | .qrCode _ => r
  | .updatedAt (.vInt n) => { r with updatedAt := n }
  | .updatedAt _ => r

/-- `ContainerCRUD.update`: an empty dictionary reads the row back
unchanged; otherwise `updates["updatedAt"] = utcnow()` is forced in, the
recognised fields become `SET` clauses, and the row (when it exists) is
rewritten; `none` models the missing-row (`rowcount == 0`) result. -/
def container_update (row : Option ContainerRow) (now : Int)
    (updates : List (String × UpdVal)) : Option ContainerRow :=
  if updates = [] then row
  else
    let updates := dictSet updates "updatedAt" (.vInt now)
    let clauses := updates.filterMap toClause
    if clauses = [] then row
    else
      match row with
      | none => none
      | some r => some (clauses.foldl applyClause r)

/-- The update dictionary `UART._update_local_container` builds from a
server response carrying both `isReturnable` and `updatedAt`. -/
def seq3_server_updates (isReturnable : Bool) (serverUpdatedAt : Int) :
    List (String × UpdVal) :=
  [("is_returnable", .vBool isReturnable), ("updatedAt", .vInt serverUpdatedAt)]

/-! ## Concrete fixtures used by the scenario theorems -/

/-- A quiescent engine: zeroed counters, all flags down, empty streams. -/
def uartS0 : EngineState :=
  { message_id_counter := 0, waitingForAck := false, lastAckId := none,
    sensorCover := false, sensorContainer := false,
    seq1LightsActive := false, seq1ActivationTime := none,
    seq2Completed := false, seq2CompletionTime := none,
    seq3Completed := false, seq3CompletionTime := none,
    seq4InProgress := false, waitingForQr := false, containerQrCode := none,
    deviceInactive := false, secureMode := false,
    input := [], output := [], pendingQr := none,
    qrValidationResult := false, now := 0 }

/-- An ACK frame from the microcontroller. -/
def ackM : UARTMessage := ⟨.ACK, 3, [0x08, 0x01]⟩

/-- A BUTTON_PUSHED frame (empty payload). -/
def btnM : UARTMessage := ⟨.BUTTON_PUSHED, 7, []⟩

/-- An ERROR_MSG frame (one byte of text). -/
def errM : UARTMessage := ⟨.ERROR_MSG, 9, [0x45]⟩

/-! ## Theorems

General helper lemmas first, then one theorem per claim (with its witness
or counterexample). -/

/-- Decoding inverts the type byte. -/
lemma MessageType.ofByte_toByte (t : MessageType) :
    MessageType.ofByte t.toByte = some t := by
  cases t <;> rfl

namespace UARTProtocol

/-- The explicit byte list a valid message encodes to. -/
lemma encode_message_eq (m : UARTMessage) (hv : validate_message m = true) :
    encode_message m =
      some (0x7B :: m.msg_type.toByte :: m.msg_id :: m.payload.length ::
        (m.payload ++ [0x7D])) := by
  simp [encode_message, hv, START_BYTE, END_BYTE]

/-- Any frame of the encoder's shape validates. -/
lemma validate_frame_encoded (m : UARTMessage) :
    validate_frame (0x7B :: m.msg_type.toByte :: m.msg_id :: m.payload.length ::
      (m.payload ++ [0x7D])) = true := by
  simp only [validate_frame, START_BYTE, END_BYTE, List.getLastD_cons,
    List.getLastD_concat, List.getD_cons_succ, List.getD_cons_zero]
  simp [List.getLast?_concat]
  omega

/-- Decoding a frame of the encoder's shape recovers the message. -/
lemma decode_encoded (m : UARTMessage) :
    decode_frame (0x7B :: m.msg_type.toByte :: m.msg_id :: m.payload.length ::
      (m.payload ++ [0x7D])) = some m := by
  simp [decode_frame, validate_frame_encoded, List.getD_cons_succ,
    List.getD_cons_zero, MessageType.ofByte_toByte, List.drop, List.take_left]

end UARTProtocol

/-- C3.  For every message the encoder accepts (type in the defined set —
inherent in `MessageType` — id in [0,99], payload at most 255 bytes),
decoding the encoded frame returns the original message; the frame has
length `5 + payload length`, starts with 0x7B and ends with 0x7D.  The
concrete instance {type=0x05, id=42, payload=[01 02 00]} encodes to
`7B 05 2A 03 01 02 00 7D`, decodes back to itself, and turns undecodable
when byte 0 is changed to 0x7A. -/
theorem uart_codec_roundtrip (m : UARTMessage)
    (hv : UARTProtocol.validate_message m = true)
    (_hbytes : m.payload.all (fun b => b < 256) = true) :
    (∃ frame, UARTProtocol.encode_message m = some frame ∧
      UARTProtocol.decode_frame frame = some m ∧
      frame.length = 5 + m.payload.length ∧
      frame.headD 0 = 0x7B ∧ frame.getLastD 0 = 0x7D) ∧
    UARTProtocol.encode_message ⟨.LIGHT_MANAGEMENT, 42, [0x01, 0x02, 0x00]⟩ =
      some [0x7B, 0x05, 0x2A, 0x03, 0x01, 0x02, 0x00, 0x7D] ∧
    UARTProtocol.decode_frame [0x7B, 0x05, 0x2A, 0x03, 0x01, 0x02, 0x00, 0x7D] =
      some ⟨.LIGHT_MANAGEMENT, 42, [0x01, 0x02, 0x00]⟩ ∧
    UARTProtocol.decode_frame [0x7A, 0x05, 0x2A, 0x03, 0x01, 0x02, 0x00, 0x7D] =
      none := by
  refine ⟨⟨_, UARTProtocol.encode_message_eq m hv,
    UARTProtocol.decode_encoded m, ?_, rfl, ?_⟩, by decide, by decide, by decide⟩
  · simp; omega
  · simp only [List.getLastD_cons, List.getLastD_concat]

/-- Witness for `uart_codec_roundtrip` at the concrete scenario message. -/
theorem uart_codec_roundtrip_witness :
    (∃ frame,
      UARTProtocol.encode_message ⟨.LIGHT_MANAGEMENT, 42, [0x01, 0x02, 0x00]⟩ =
        some frame ∧
      UARTProtocol.decode_frame frame =
        some ⟨.LIGHT_MANAGEMENT, 42, [0x01, 0x02, 0x00]⟩ ∧
      frame.length = 5 + 3 ∧ frame.headD 0 = 0x7B ∧ frame.getLastD 0 = 0x7D) := by
  have h := uart_codec_roundtrip ⟨.LIGHT_MANAGEMENT, 42, [0x01, 0x02, 0x00]⟩
    (by decide) (by decide)
  exact h.1

/-- `dictSet` always leaves an entry for the key, carrying the new value. -/
lemma dictSet_mem_key (d : List (String × UpdVal)) (k : String) (v : UpdVal) :
    (k, v) ∈ dictSet d k v := by
  unfold dictSet
  by_cases h : (d.any fun p => p.1 = k) = true
  · rw [if_pos h]
    obtain ⟨p, hp, hpk⟩ := List.any_eq_true.mp h
    refine List.mem_map.mpr ⟨p, hp, ?_⟩
    simp [of_decide_eq_true hpk]
  · rw [if_neg h]
    simp

/-- After `dictSet d k v`, every entry whose key is `k` carries `v`. -/
lemma dictSet_key_val (d : List (String × UpdVal)) (k : String) (v : UpdVal) :
    ∀ p ∈ dictSet d k v, p.1 = k → p.2 = v := by
  intro p hp hpk
  unfold dictSet at hp
  by_cases h : (d.any fun q => q.1 = k) = true
  · rw [if_pos h] at hp
    obtain ⟨q, _, hq⟩ := List.mem_map.mp hp
    by_cases hqk : q.1 = k
    · rw [if_pos hqk] at hq
      rw [← hq]
    · rw [if_neg hqk] at hq
      subst hq
      exact absurd hpk hqk
  · rw [if_neg h] at hp
    rcases List.mem_append.mp hp with hp | hp
    · exact absurd (List.any_eq_true.mpr ⟨p, hp, decide_eq_true hpk⟩) h
    · rw [List.mem_singleton.mp hp]

/-- Only `updatedAt` entries produce `updatedAt` clauses, so every
`updatedAt` clause of the built query carries the forced timestamp. -/
lemma clause_updatedAt_val (d : List (String × UpdVal)) (now : Int) (v : UpdVal)
    (hmem : SetClause.updatedAt v ∈
      (dictSet d "updatedAt" (.vInt now)).filterMap toClause) :
    v = .vInt now := by
  obtain ⟨p, hp, hpc⟩ := List.mem_filterMap.mp hmem
  have hkey : p.1 = "updatedAt" := by
    obtain ⟨k, u⟩ := p
    unfold toClause at hpc
    split at hpc <;> simp_all
  have := dictSet_key_val d "updatedAt" (.vInt now) p hp hkey
  obtain ⟨k, u⟩ := p
  simp only at hkey this
  subst hkey this
  simpa [toClause] using hpc.symm

/-- The built query always contains the forced `updatedAt` clause. -/
lemma clause_updatedAt_mem (d : List (String × UpdVal)) (now : Int) :
    SetClause.updatedAt (.vInt now) ∈
      (dictSet d "updatedAt" (.vInt now)).filterMap toClause :=
  List.mem_filterMap.mpr ⟨("updatedAt", .vInt now), dictSet_mem_key d _ _, rfl⟩

/-- Folding the clauses writes `now` into `updatedAt` provided either the
forced clause is still pending or it has already been applied. -/
lemma foldl_applyClause_updatedAt (now : Int) :
    ∀ (cs : List SetClause) (r : ContainerRow),
      (∀ v, SetClause.updatedAt v ∈ cs → v = .vInt now) →
      (SetClause.updatedAt (.vInt now) ∈ cs ∨ r.updatedAt = now) →
      (cs.foldl applyClause r).updatedAt = now := by
  intro cs
  induction cs with
  | nil =>
    intro r _ hex
    rcases hex with h | h
    · simp at h
    · simpa using h
  | cons c cs ih =>
    intro r hall hex
    have hall' : ∀ v, SetClause.updatedAt v ∈ cs → v = .vInt now :=
      fun v hv => hall v (List.mem_cons_of_mem _ hv)
    rcases c with v | b | v | v
    · refine ih _ hall' ?_
      rcases hex with h | h
      · rcases List.mem_cons.mp h with h | h
        · exact absurd h (by simp)
        · exact Or.inl h
      · right
        rcases v with n | b | s | _ <;> simp [applyClause, h]
    · refine ih _ hall' ?_
      rcases hex with h | h
      · rcases List.mem_cons.mp h with h | h
        · exact absurd h (by simp)
        · exact Or.inl h
      · exact Or.inr (by simp [applyClause, h])
    · refine ih _ hall' ?_
      rcases hex with h | h
      · rcases List.mem_cons.mp h with h | h
        · exact absurd h (by simp)
        · exact Or.inl h
      · right
        rcases v with n | b | s | _ <;> simp [applyClause, h]
    · have hv : v = .vInt now := hall v (List.mem_cons_self _ _)
      subst hv
      exact ih _ hall' (Or.inr (by simp [applyClause]))

/-- C10.  Every non-empty update of an existing container row through
`ContainerCRUD.update` writes `utcnow()` into `updatedAt`, overriding any
`updatedAt` value the caller supplied; in particular the server-supplied
`updatedAt` that `UART._update_local_container` passes on the SEQ3 path is
never persisted (whenever it differs from the adapter's own clock
reading). -/
theorem container_update_stamps_updatedAt (row : ContainerRow) (now : Int)
    (updates : List (String × UpdVal)) (hne : updates ≠ []) :
    (∃ r, container_update (some row) now updates = some r ∧
      r.updatedAt = now) ∧
    ∀ serverTs isReturnable, serverTs ≠ now →
      ∃ r, container_update (some row) now
        (seq3_server_updates isReturnable serverTs) = some r ∧
        r.updatedAt ≠ serverTs := by
  constructor
  · have hclauses := clause_updatedAt_mem updates now
    have hcne : (dictSet updates "updatedAt" (.vInt now)).filterMap toClause ≠ [] :=
      List.ne_nil_of_mem hclauses
    have heq : container_update (some row) now updates =
        some (((dictSet updates "updatedAt" (.vInt now)).filterMap
          toClause).foldl applyClause row) := by
      simp only [container_update, if_neg hne, if_neg hcne]
    exact ⟨_, heq, foldl_applyClause_updatedAt now _ row
      (clause_updatedAt_val updates now) (Or.inl hclauses)⟩
  · intro serverTs isReturnable hts
    have heq : container_update (some row) now
        (seq3_server_updates isReturnable serverTs) =
        some { row with isReturnable := isReturnable, updatedAt := now } := by
      simp [container_update, seq3_server_updates, dictSet, toClause,
        applyClause, UpdVal.truthy]
    refine ⟨_, heq, ?_⟩
    simp only []
    omega

/-- Witness for `container_update_stamps_updatedAt` at a concrete row and
the SEQ3-style update dictionary. -/
theorem container_update_stamps_updatedAt_witness :
    (∃ r, container_update (some ⟨"c1", "QR1", true, none, 0⟩) 50
      [("is_returnable", .vBool true), ("updatedAt", .vInt 99)] = some r ∧
      r.updatedAt = 50) := by
  have h := container_update_stamps_updatedAt ⟨"c1", "QR1", true, none, 0⟩ 50
    [("is_returnable", .vBool true), ("updatedAt", .vInt 99)] (by decide)
  exact h.1

/-- C5 counterexample.  When the scanned code is absent from the local
store, the offline fallback rejects the return but writes *no* audit entry
at all, refuting the claim that every offline outcome (accept or reject) is
audited with `is_offline = true`. -/
theorem offline_fallback_missing_container_not_audited :
    handle_offline_fallback (fun _ => none) 0 "PAKA01" = (false, []) := rfl

/-- C5 amended.  Under the offline fallback the scan is accepted iff the
container exists locally, is returnable, and its due date is null or not
earlier than the current time; every audit entry written is flagged
`is_offline = true` and names the container, but an entry is written only
when the container was found: a missing container is rejected without any
audit record. -/
theorem offline_fallback_amended
    (get_by_qr_code : String → Option OfflineContainer) (now : Int)
    (qr : String) :
    ((handle_offline_fallback get_by_qr_code now qr).1 = true ↔
      ∃ c, get_by_qr_code qr = some c ∧ c.is_returnable = true ∧
        (c.due_date = none ∨ ∃ d, c.due_date = some d ∧ ¬ d < now)) ∧
    (∀ e ∈ (handle_offline_fallback get_by_qr_code now qr).2,
      e.is_offline = true ∧ ∃ c, get_by_qr_code qr = some c ∧
        e.container_id = c.id ∧
        (e.kind = .RETURN_VALID ↔
          (handle_offline_fallback get_by_qr_code now qr).1 = true)) ∧
    ((handle_offline_fallback get_by_qr_code now qr).2 = [] ↔
      get_by_qr_code qr = none) := by
  unfold handle_offline_fallback
  rcases hc : get_by_qr_code qr with _ | c
  · simp
  · rcases hr : c.is_returnable with _ | _
    · simp [hr]
    · rcases hd : c.due_date with _ | d
      · simp [hr, hd]
      · by_cases hlt : d < now
        · simp [hr, hd, hlt]
        · simp [hr, hd, hlt]
          omega

/-- C8 counterexample.  A lone audit log with a null container reference
created after the cutoff is dropped from the request (the request's log list
is empty), yet after a successful response it is deleted anyway — the
deletion loop runs over every log read since the cutoff, not over the logs
included in the request. -/
theorem do_sync_deletes_dropped_logs :
    (do_sync ⟨[], [⟨"L1", none, 5⟩], some ⟨0, 0, false⟩⟩ 10 (some [])).2.1 = [] ∧
    (do_sync ⟨[], [⟨"L1", none, 5⟩], some ⟨0, 0, false⟩⟩ 10 (some [])).1.logs = [] := by
  decide

/-- C8 amended.  With distinct log ids: the cutoff is the stored
`last_sync_at` (epoch when no device status exists, per `hcut`); the
request contains exactly the since-cutoff logs that carry a container
reference; on a successful response every log read since the cutoff —
including the null-reference ones dropped from the request — is deleted and
the others are kept, the local containers are replaced from the response
(stamped with the capture time), and `last_sync_at` becomes the time
captured before the reads; a failed exchange changes nothing. -/
theorem do_sync_amended (db : SyncDB) (now cutoff : Int)
    (resp : List ServerContainer)
    (hnd : (db.logs.map SyncLog.id).Nodup)
    (hcut : (match db.status with
      | some st => st.last_sync_at
      | none => 0) = cutoff) :
    (do_sync db now (some resp)).2.1 =
      (db.logs.filter fun l => cutoff ≤ l.created_at).filter
        (fun l => l.container_id ≠ none) ∧
    (∀ l ∈ db.logs,
      l ∈ (do_sync db now (some resp)).1.logs ↔ l.created_at < cutoff) ∧
    (do_sync db now (some resp)).1.containers = update_containers resp now ∧
    (do_sync db now (some resp)).1.status =
      db.status.map (fun st => { st with last_sync_at := now }) ∧
    (do_sync db now none).1 = db := by
  have hcontains : ∀ l ∈ db.logs,
      (((db.logs.filter fun l2 => cutoff ≤ l2.created_at).map
        SyncLog.id).contains l.id = true ↔ cutoff ≤ l.created_at) := by
    intro l hl
    constructor
    · intro h
      obtain ⟨i, hi, hieq⟩ := List.mem_map.mp (List.mem_of_elem_eq_true h)
      obtain ⟨hi2, hil⟩ := List.mem_filter.mp hi
      have : i = l := List.inj_on_of_nodup_map hnd hi2 hl hieq
      exact of_decide_eq_true (this ▸ hil)
    · intro h
      have : l ∈ db.logs.filter fun l2 => cutoff ≤ l2.created_at :=
        List.mem_filter.mpr ⟨hl, decide_eq_true h⟩
      exact List.elem_eq_true_of_mem (List.mem_map.mpr ⟨l, this, rfl⟩)
  refine ⟨?_, ?_, ?_, ?_, ?_⟩
  · simp only [do_sync, hcut]
  · intro l hl
    simp only [do_sync, hcut, List.mem_filter]
    constructor
    · rintro ⟨-, hkeep⟩
      have := (not_iff_not.mpr (hcontains l hl)).mp (by simpa using hkeep)
      omega
    · intro h
      refine ⟨hl, ?_⟩
      have := (not_iff_not.mpr (hcontains l hl)).mpr (by omega)
      simpa using this
  · simp only [do_sync, hcut]
  · simp only [do_sync, hcut]
  · simp only [do_sync, hcut]

/-- Witness for `do_sync_amended`: one null-reference log and one
container-bearing log since the cutoff, one older log. -/
theorem do_sync_amended_witness :
    (do_sync ⟨[], [⟨"L1", none, 5⟩, ⟨"L2", some "c1", 6⟩, ⟨"L3", some "c2", -4⟩],
        some ⟨0, 0, false⟩⟩ 10 (some [⟨"c9", "QR9", true, none⟩])).2.1 =
      [⟨"L2", some "c1", 6⟩] ∧
    (∀ l ∈ ([⟨"L1", none, 5⟩, ⟨"L2", some "c1", 6⟩, ⟨"L3", some "c2", -4⟩] :
        List SyncLog),
      l ∈ (do_sync ⟨[], [⟨"L1", none, 5⟩, ⟨"L2", some "c1", 6⟩,
          ⟨"L3", some "c2", -4⟩], some ⟨0, 0, false⟩⟩ 10
          (some [⟨"c9", "QR9", true, none⟩])).1.logs ↔ l.created_at < 0) := by
  have h := do_sync_amended
    ⟨[], [⟨"L1", none, 5⟩, ⟨"L2", some "c1", 6⟩, ⟨"L3", some "c2", -4⟩],
      some ⟨0, 0, false⟩⟩ 10 0 [⟨"c9", "QR9", true, none⟩]
    (by decide) (by decide)
  refine ⟨?_, h.2.1⟩
  rw [h.1]
  decide

/-- C9 counterexample.  On the very first watchdog evaluation
(`_last_secure_mode_status` still `None`) with `last_seen_at` three days in
the past, `is_in_safe_mode = true` is persisted but the secure-mode
callback is *not* invoked (the source guards the callback with
`self._last_secure_mode_status is not None`), refuting "fires the callback
once". -/
theorem check_secure_mode_first_eval_no_callback :
    check_secure_mode ⟨[], [], some ⟨0, 0, false⟩⟩ none 259200 =
      (⟨[], [], some ⟨0, 0, true⟩⟩, none, some true) := by
  decide

/-- C9 amended.  Each evaluation computes `should = (now − last_seen_at >
2 days)`; the flag persisted afterwards is `should` (a write happens only
when it differs, which is observationally the same); the new in-memory
last status is `should`; and the callback fires — with value `should` —
iff a *previous* evaluation recorded a value different from `should`: in
particular a first evaluation never fires the callback. -/
theorem check_secure_mode_amended (db : SyncDB) (lastStatus : Option Bool)
    (now : Int) (st : DeviceStatusRow) (should : Bool)
    (hst : db.status = some st)
    (hshould : should = true ↔ now - st.last_seen_at > SECURE_MODE_THRESHOLD) :
    (check_secure_mode db lastStatus now).1.status =
      some { st with is_in_safe_mode := should } ∧
    (check_secure_mode db lastStatus now).2.2 = some should ∧
    ((check_secure_mode db lastStatus now).2.1 ≠ none ↔
      ∃ b, lastStatus = some b ∧ b ≠ should) ∧
    (∀ x, (check_secure_mode db lastStatus now).2.1 = some x → x = should) := by
  have hd : decide (now - st.last_seen_at > SECURE_MODE_THRESHOLD) = should := by
    rcases hb : should with _ | _ <;> simp [hb] at hshould <;> simp [hshould]
  unfold check_secure_mode
  rw [hst]
  simp only [hd]
  refine ⟨?_, ?_, ?_, ?_⟩
  · by_cases hc : st.is_in_safe_mode = should
    · rw [if_neg (by simpa using hc)]
      simp [hst, ← hc]
    · rw [if_pos (by simpa using hc)]
      simp [hst]
  · trivial
  · rcases lastStatus with _ | b
    · simp
    · by_cases hb : b = should <;> simp [hb]
  · intro x
    rcases lastStatus with _ | b
    · simp
    · by_cases hb : b = should <;> simp [hb]
      exact fun h => h.symm

/-- Witness for `check_secure_mode_amended`: a stale `last_seen_at` with a
recorded previous status `false` flips the flag and fires the callback. -/
theorem check_secure_mode_amended_witness :
    (check_secure_mode ⟨[], [], some ⟨0, 5, false⟩⟩ (some false) 200005).1.status =
      some ⟨0, 5, true⟩ ∧
    (check_secure_mode ⟨[], [], some ⟨0, 5, false⟩⟩ (some false) 200005).2.2 =
      some true ∧
    ((check_secure_mode ⟨[], [], some ⟨0, 5, false⟩⟩ (some false) 200005).2.1 ≠
      none ↔ ∃ b, (some false : Option Bool) = some b ∧ b ≠ true) := by
  have h := check_secure_mode_amended ⟨[], [], some ⟨0, 5, false⟩⟩ (some false)
    200005 ⟨0, 5, false⟩ true rfl (by constructor <;> intro <;> decide)
  exact ⟨h.1, h.2.1, h.2.2.1⟩

namespace UART

/-- `s'` extends the output trace of `s`. -/
def OutExt (s s' : EngineState) : Prop :=
  ∃ t, s'.output = s.output ++ t

lemma outExt_refl (s : EngineState) : OutExt s s := ⟨[], by simp⟩

lemma outExt_trans {s1 s2 s3 : EngineState} (h12 : OutExt s1 s2)
    (h23 : OutExt s2 s3) : OutExt s1 s3 := by
  obtain ⟨t1, h1⟩ := h12
  obtain ⟨t2, h2⟩ := h23
  exact ⟨t1 ++ t2, by simp [h2, h1]⟩

lemma outExt_of_output_eq {s s' : EngineState} (h : s'.output = s.output) :
    OutExt s s' := ⟨[], by simp [h]⟩

lemma outExt_send_message (s : EngineState) (t : MessageType) (p : List Nat) :
    OutExt s (send_message s t p) := ⟨_, rfl⟩

lemma outExt_send_ack (s : EngineState) (m : UARTMessage) :
    OutExt s (send_ack s m) := ⟨_, rfl⟩

/-- A command-send followed by an ack-wait only appends to the trace. -/
lemma outExt_step (f : Nat)
    (hloop : ∀ s, OutExt s (wait_for_ack_loop f s)) (s : EngineState)
    (t : MessageType) (p : List Nat) :
    OutExt s (wait_for_ack_loop f (begin_wait_for_ack (send_message s t p))) :=
  outExt_trans (outExt_send_message s t p)
    (outExt_trans (outExt_of_output_eq rfl) (hloop _))

/-- Variant of `outExt_step` starting from any already-reached state. -/
lemma outExt_step' (f : Nat)
    (hloop : ∀ s, OutExt s (wait_for_ack_loop f s)) {s x : EngineState}
    (hx : OutExt s x) (t : MessageType) (p : List Nat) :
    OutExt s (wait_for_ack_loop f (begin_wait_for_ack (send_message x t p))) :=
  outExt_trans hx (outExt_step f hloop x t p)

/-- Given that the ack-wait loop at fuel `f` only appends to the trace, so
does every handler and sequence at fuel `f`. -/
lemma seq_block_ext (f : Nat)
    (hloop : ∀ s, OutExt s (wait_for_ack_loop f s)) :
    (∀ s, OutExt s (handle_seq3_valid_qr f s).2) ∧
    (∀ s, OutExt s (handle_seq3_invalid_qr f s).2) ∧
    (∀ s, OutExt s (execute_sequence_1 f s).2) ∧
    (∀ s, OutExt s (execute_sequence_2 f s).2) ∧
    (∀ s, OutExt s (execute_sequence_3 f s).2) ∧
    (∀ s m, OutExt s (handle_button_press f s m)) ∧
    (∀ s m, OutExt s (handle_sensor_change f s m)) ∧
    (∀ s m, OutExt s (handle_wait_msg f s m)) ∧
    (∀ s b, OutExt s (handle_wait_batch f s b)) := by
  have hv : ∀ s, OutExt s (handle_seq3_valid_qr f s).2 := by
    intro s
    simp only [handle_seq3_valid_qr, set_container_light_green, control_light]
    split
    · exact outExt_step f hloop s _ _
    · exact outExt_trans (outExt_step f hloop s _ _) (outExt_of_output_eq rfl)
  have hi : ∀ s, OutExt s (handle_seq3_invalid_qr f s).2 := by
    intro s
    simp only [handle_seq3_invalid_qr, set_container_light_red, control_light]
    split
    · exact outExt_step f hloop s _ _
    · exact outExt_trans (outExt_step f hloop s _ _) (outExt_of_output_eq rfl)
  have h1 : ∀ s, OutExt s (execute_sequence_1 f s).2 := by
    intro s
    simp only [execute_sequence_1, unblock_doors, block_doors,
      set_cover_light_white, set_container_light_white, control_door,
      control_light]
    split
    · exact outExt_step f hloop s _ _
    · split
      · exact outExt_trans (outExt_step f hloop s _ _)
          (outExt_step f hloop _ _ _)
      · split
        · exact outExt_trans (outExt_trans (outExt_step f hloop s _ _)
            (outExt_step f hloop _ _ _)) (outExt_step f hloop _ _ _)
        · split
          · exact outExt_trans (outExt_trans (outExt_trans
              (outExt_step f hloop s _ _) (outExt_step f hloop _ _ _))
              (outExt_step f hloop _ _ _)) (outExt_step f hloop _ _ _)
          · exact outExt_trans (outExt_trans (outExt_trans (outExt_trans
              (outExt_step f hloop s _ _) (outExt_step f hloop _ _ _))
              (outExt_step f hloop _ _ _)) (outExt_step f hloop _ _ _))
              (outExt_of_output_eq rfl)
  have h2 : ∀ s, OutExt s (execute_sequence_2 f s).2 := by
    intro s
    simp only [execute_sequence_2, set_cover_light_green, control_light]
    repeat' split
    all_goals exact outExt_step' f hloop (outExt_of_output_eq rfl) _ _
  have h3 : ∀ s, OutExt s (execute_sequence_3 f s).2 := by
    intro s
    simp only [execute_sequence_3]
    repeat' split
    all_goals
      first
      | exact outExt_trans (outExt_of_output_eq rfl) (hv _)
      | exact outExt_trans (outExt_of_output_eq rfl) (hi _)
  have hb : ∀ s m, OutExt s (handle_button_press f s m) := by
    intro s m
    simp only [handle_button_press]
    split
    · exact outExt_refl s
    · exact h1 s
  have hs : ∀ s m, OutExt s (handle_sensor_change f s m) := by
    intro s m
    simp only [handle_sensor_change]
    repeat' split
    all_goals
      first
      | exact outExt_of_output_eq rfl
      | exact outExt_trans (outExt_of_output_eq rfl) (h2 _)
      | exact outExt_trans (outExt_of_output_eq rfl) (h3 _)
  have hm : ∀ s m, OutExt s (handle_wait_msg f s m) := by
    intro s m
    simp only [handle_wait_msg]
    rcases m with ⟨t, i, p⟩
    cases t
    all_goals
      first
      | exact outExt_of_output_eq rfl
      | exact outExt_send_ack s _
      | exact outExt_trans (hs s _) (outExt_send_ack _ _)
      | exact outExt_trans (hb s _) (outExt_send_ack _ _)
      | exact outExt_trans (outExt_send_message _ _ _) (outExt_send_ack _ _)
  have hbatch : ∀ b s, OutExt s (handle_wait_batch f s b) := by
    intro b
    induction b with
    | nil => intro s; simp only [handle_wait_batch]; exact outExt_refl s
    | cons m ms ih =>
      intro s
      simp only [handle_wait_batch]
      exact outExt_trans (hm s m) (ih _)
  exact ⟨hv, hi, h1, h2, h3, hb, hs, hm, fun s b => hbatch b s⟩

/-- The ack-wait loop only appends to the output trace. -/
lemma wait_for_ack_loop_ext : ∀ (f : Nat) (s : EngineState),
    OutExt s (wait_for_ack_loop f s) := by
  intro f
  induction f with
  | zero =>
    intro s
    simp only [wait_for_ack_loop]
    exact outExt_refl s
  | succ f ih =>
    intro s
    rw [wait_for_ack_loop]
    split
    · exact outExt_refl s
    · split
      · exact outExt_refl s
      · next b rest heq =>
        exact outExt_trans (outExt_trans
          (outExt_of_output_eq (rfl :
            ({ s with input := rest } : EngineState).output = s.output))
          ((seq_block_ext f ih).2.2.2.2.2.2.2.2 { s with input := rest } b))
          (ih _)

/-- Every handler invoked during `wait_for_ack` only appends to the trace. -/
lemma handle_wait_msg_ext (f : Nat) (s : EngineState) (m : UARTMessage) :
    OutExt s (handle_wait_msg f s m) :=
  (seq_block_ext f (wait_for_ack_loop_ext f)).2.2.2.2.2.2.2.1 s m

/-- `_handle_button_press` only appends to the trace. -/
lemma handle_button_press_ext (f : Nat) (s : EngineState) (m : UARTMessage) :
    OutExt s (handle_button_press f s m) :=
  (seq_block_ext f (wait_for_ack_loop_ext f)).2.2.2.2.2.1 s m

/-- `_handle_sensor_change` only appends to the trace. -/
lemma handle_sensor_change_ext (f : Nat) (s : EngineState) (m : UARTMessage) :
    OutExt s (handle_sensor_change f s m) :=
  (seq_block_ext f (wait_for_ack_loop_ext f)).2.2.2.2.2.2.1 s m

end UART

namespace UART

/-- Reaching `x` from `send_ack s m` puts the ACK for `m` at the front of
the trace extension. -/
lemma outExt_after_send_ack {s x : EngineState} {m : UARTMessage}
    (h : OutExt (send_ack s m) x) :
    ∃ t, x.output = s.output ++ UARTProtocol.create_ack m :: t := by
  obtain ⟨t, ht⟩ := h
  exact ⟨t, by simp [ht, send_ack]⟩

/-- ACKing `m` after reaching `x` from `s` puts the ACK for `m` at the end
of the trace extension. -/
lemma outExt_ack_last {s x : EngineState} {m : UARTMessage}
    (h : OutExt s x) :
    ∃ t, (send_ack x m).output =
      s.output ++ t ++ [UARTProtocol.create_ack m] := by
  obtain ⟨t, ht⟩ := h
  exact ⟨t, by simp [send_ack, ht]⟩

end UART

/-- C1 counterexample.  An ERROR_MSG frame processed inside `wait_for_ack`
refutes the ACK-first ordering: the error handler's red-light command is
written to the port *before* the ACK, so the trace extension does not start
with the ACK frame. -/
theorem wait_for_ack_error_acked_after_mutation :
    (UART.handle_wait_msg 1 uartS0 errM).output =
      [⟨.LIGHT_MANAGEMENT, 1, [0, 1, 0]⟩, UARTProtocol.create_ack errM] ∧
    ¬ ∃ t, (UART.handle_wait_msg 1 uartS0 errM).output =
        uartS0.output ++ UARTProtocol.create_ack errM :: t := by
  have heval : (UART.handle_wait_msg 1 uartS0 errM).output =
      [⟨.LIGHT_MANAGEMENT, 1, [0, 1, 0]⟩, UARTProtocol.create_ack errM] := by
    simp [UART.handle_wait_msg, UART.handle_error_message, UART.set_error_state,
      UART.set_container_light_red, UART.control_light, UART.send_message,
      UART.send_ack, uartS0, errM]
  refine ⟨heval, ?_⟩
  rw [heval]
  rintro ⟨t, ht⟩
  simp [uartS0, UARTProtocol.create_ack, errM] at ht

/-- C1 amended.  For every received non-ACK frame: the top-level dispatcher
`_process_message` emits the frame's ACK (payload `[orig_type, orig_id]`)
first, before anything its handler writes; the SEQ4 removal wait emits
exactly that one ACK for the frame and nothing else; but `wait_for_ack`
runs the frame's handler first and emits the ACK *after* it, so any
handler-caused writes precede the ACK on the wire. -/
theorem ack_ordering_amended (f : Nat) (s : EngineState) (m : UARTMessage)
    (cover container : Bool) (hm : m.msg_type ≠ .ACK) :
    (∃ t, (UART.process_message f s m).output =
      s.output ++ UARTProtocol.create_ack m :: t) ∧
    (UART.removal_wait_msg s cover container m).1.output =
      s.output ++ [UARTProtocol.create_ack m] ∧
    (∃ t, (UART.handle_wait_msg f s m).output =
      s.output ++ t ++ [UARTProtocol.create_ack m]) := by
  obtain ⟨t, i, p⟩ := m
  refine ⟨?_, ?_, ?_⟩
  · simp only [UART.process_message]
    rw [if_pos hm]
    cases t
    · exact absurd rfl hm
    · exact UART.outExt_after_send_ack (UART.outExt_refl _)
    · exact UART.outExt_after_send_ack (UART.handle_sensor_change_ext f _ _)
    · exact UART.outExt_after_send_ack (UART.outExt_refl _)
    · exact UART.outExt_after_send_ack (UART.outExt_refl _)
    · exact UART.outExt_after_send_ack (UART.outExt_refl _)
    · exact UART.outExt_after_send_ack (UART.handle_button_press_ext f _ _)
    · exact UART.outExt_after_send_ack (UART.outExt_send_message _ _ _)
    · exact UART.outExt_after_send_ack (UART.outExt_refl _)
  · simp only [UART.removal_wait_msg]
    repeat' split
    all_goals rfl
  · simp only [UART.handle_wait_msg]
    cases t
    · exact absurd rfl hm
    · exact UART.outExt_ack_last (UART.outExt_refl _)
    · exact UART.outExt_ack_last (UART.handle_sensor_change_ext f _ _)
    · exact UART.outExt_ack_last (UART.outExt_refl _)
    · exact UART.outExt_ack_last (UART.outExt_refl _)
    · exact UART.outExt_ack_last (UART.outExt_refl _)
    · exact UART.outExt_ack_last (UART.handle_button_press_ext f _ _)
    · exact UART.outExt_ack_last (UART.outExt_send_message _ _ _)
    · exact UART.outExt_ack_last (UART.outExt_refl _)

/-- Witness for `ack_ordering_amended` at a concrete button frame inside
the removal wait. -/
theorem ack_ordering_amended_witness :
    (UART.removal_wait_msg uartS0 false false btnM).1.output =
      uartS0.output ++ [UARTProtocol.create_ack btnM] :=
  (ack_ordering_amended 1 uartS0 btnM false false (by decide)).2.1

/-- C2.  Evaluating `wait_for_ack`'s message handling at a BUTTON_PUSHED
frame (mode gates clear, ACKs arriving) shows the ack-wait *does* start a
sequence: SEQ1's door and light commands are emitted — and the button is
ACKed only after the whole sequence — contradicting the rule that the
ack-wait drains and ACKs without triggering sequences. -/
theorem wait_for_ack_button_starts_seq1 :
    (UART.handle_wait_msg 9
      { uartS0 with input := [[ackM], [ackM], [ackM], [ackM]] } btnM).output =
      [⟨.DOOR_CONTROL, 1, [1]⟩, ⟨.DOOR_CONTROL, 2, [0]⟩,
       ⟨.LIGHT_MANAGEMENT, 3, [1, 0, 0]⟩, ⟨.LIGHT_MANAGEMENT, 4, [0, 0, 0]⟩,
       UARTProtocol.create_ack btnM] ∧
    (UART.handle_wait_msg 9
      { uartS0 with input := [[ackM], [ackM], [ackM], [ackM]] } btnM).seq1LightsActive
      = true := by
  constructor <;>
    simp [UART.handle_wait_msg, UART.handle_button_press,
      UART.execute_sequence_1, UART.wait_for_ack_loop, UART.handle_wait_batch,
      UART.handle_ack, UART.is_device_inactive, UART.begin_wait_for_ack,
      UART.unblock_doors, UART.block_doors, UART.set_cover_light_white,
      UART.set_container_light_white, UART.control_door, UART.control_light,
      UART.send_message, UART.send_ack, uartS0, ackM, btnM,
      UARTProtocol.create_ack]

/-- C6.  With either mode gate set (device inactive or secure mode — the
callback reads their disjunction), a BUTTON_PUSHED frame never starts SEQ1
and a SENSOR_STATE_CHANGE frame reporting presence never starts SEQ2/SEQ3:
both in the top-level dispatcher and inside `wait_for_ack`, processing the
frame is exactly sending its ACK — the event is dropped (with a warning)
and no other state change or emission happens. -/
theorem mode_gates_suppress_sequences (f : Nat) (s : EngineState)
    (m : UARTMessage)
    (hgate : s.deviceInactive = true ∨ s.secureMode = true)
    (hm : m.msg_type = .BUTTON_PUSHED ∨
      (m.msg_type = .SENSOR_STATE_CHANGE ∧ 2 ≤ m.payload.length ∧
        m.payload.getD 1 0 = 1)) :
    UART.process_message f s m = UART.send_ack s m ∧
    UART.handle_wait_msg f s m = UART.send_ack s m := by
  obtain ⟨t, i, p⟩ := m
  have hinact : ∀ x : EngineState, x.deviceInactive = s.deviceInactive →
      x.secureMode = s.secureMode → UART.is_device_inactive x = true := by
    intro x h1 h2
    rcases hgate with h | h <;> simp [UART.is_device_inactive, h1, h2, h]
  rcases hm with hm | ⟨hm, hlen, _⟩
  · simp only [UARTMessage.msg_type] at hm
    subst hm
    constructor
    · simp only [UART.process_message]
      rw [if_pos (by decide)]
      simp only [UART.handle_button_press]
      rw [if_pos (hinact (UART.send_ack s ⟨.BUTTON_PUSHED, i, p⟩) rfl rfl)]
    · simp only [UART.handle_wait_msg, UART.handle_button_press]
      rw [if_pos (hinact s rfl rfl)]
  · simp only [UARTMessage.msg_type] at hm
    subst hm
    simp only [UARTMessage.payload] at hlen
    constructor
    · simp only [UART.process_message]
      rw [if_pos (by decide)]
      simp only [UART.handle_sensor_change]
      rw [if_pos hlen,
        if_pos (hinact (UART.send_ack s ⟨.SENSOR_STATE_CHANGE, i, p⟩) rfl rfl)]
    · simp only [UART.handle_wait_msg, UART.handle_sensor_change]
      rw [if_pos hlen, if_pos (hinact s rfl rfl)]

/-- Witness for `mode_gates_suppress_sequences`: secure mode set, a button
frame is only ACKed. -/
theorem mode_gates_suppress_sequences_witness :
    UART.process_message 1 { uartS0 with secureMode := true } btnM =
      UART.send_ack { uartS0 with secureMode := true } btnM :=
  (mode_gates_suppress_sequences 1 { uartS0 with secureMode := true } btnM
    (Or.inr rfl) (Or.inl rfl)).1

namespace UART

/-- With no more input the ack-wait loop returns at once (its timeout
elapses with the waiting flag untouched). -/
lemma wait_for_ack_loop_no_input (f : Nat) (x : EngineState)
    (hin : x.input = []) : wait_for_ack_loop f x = x := by
  cases f with
  | zero => rw [wait_for_ack_loop]
  | succ f =>
    rw [wait_for_ack_loop, hin]
    split <;> rfl

end UART

/-- C7 counterexample.  Running SEQ1 with no incoming frames at all (every
ACK wait times out): the sequence aborts after the unblock-doors command,
and *no* LIGHT_MANAGEMENT frame — in particular no red container light — is
ever emitted, refuting "any timeout ... transitions to the error state
(container light red)". -/
theorem seq1_timeout_leaves_no_red_light :
    (UART.execute_sequence_1 2 uartS0).1 = false ∧
    (UART.execute_sequence_1 2 uartS0).2.output = [⟨.DOOR_CONTROL, 1, [1]⟩] ∧
    ∀ mm ∈ (UART.execute_sequence_1 2 uartS0).2.output,
      mm.msg_type ≠ .LIGHT_MANAGEMENT := by
  have heval : UART.execute_sequence_1 2 uartS0 =
      (false, UART.begin_wait_for_ack
        (UART.send_message uartS0 .DOOR_CONTROL [1])) := by
    simp [UART.execute_sequence_1, UART.wait_for_ack_loop,
      UART.begin_wait_for_ack, UART.unblock_doors, UART.control_door,
      UART.send_message, uartS0]
  rw [heval]
  refine ⟨rfl, ?_, ?_⟩
  · simp [UART.begin_wait_for_ack, UART.send_message, uartS0]
  · intro mm hmm
    simp [UART.begin_wait_for_ack, UART.send_message, uartS0] at hmm
    simp [hmm]

/-- Processing an ACK frame in the ack-wait loop is exactly `_handle_ack`. -/
lemma UART.handle_wait_msg_of_ack (f : Nat) (s : EngineState)
    (m : UARTMessage) (hm : m.msg_type = .ACK) :
    UART.handle_wait_msg f s m = UART.handle_ack s m := by
  obtain ⟨t, i, p⟩ := m
  simp only [UARTMessage.msg_type] at hm
  subst hm
  simp only [UART.handle_wait_msg]

/-- A batch of ACK frames leaves the output trace and the input stream
untouched (only the waiting flag and last-ACK id change). -/
lemma UART.handle_wait_batch_acks (f : Nat) :
    ∀ (b : List UARTMessage) (s : EngineState),
      (∀ m ∈ b, m.msg_type = .ACK) →
      (UART.handle_wait_batch f s b).output = s.output ∧
      (UART.handle_wait_batch f s b).input = s.input := by
  intro b
  induction b with
  | nil =>
    intro s _
    simp only [UART.handle_wait_batch]
    exact ⟨trivial, trivial⟩
  | cons m ms ih =>
    intro s hall
    simp only [UART.handle_wait_batch]
    rw [UART.handle_wait_msg_of_ack f s m (hall m (by simp))]
    exact ih (UART.handle_ack s m) fun x hx => hall x (by simp [hx])

/-- When only ACK frames arrive, the ack-wait loop emits nothing and the
remaining input still carries only ACK frames. -/
lemma UART.wait_for_ack_loop_acks : ∀ (f : Nat) (s : EngineState),
    (∀ b ∈ s.input, ∀ m ∈ b, m.msg_type = .ACK) →
    (UART.wait_for_ack_loop f s).output = s.output ∧
    (∀ b ∈ (UART.wait_for_ack_loop f s).input, ∀ m ∈ b,
      m.msg_type = .ACK) := by
  intro f
  induction f with
  | zero =>
    intro s h
    rw [UART.wait_for_ack_loop]
    exact ⟨rfl, h⟩
  | succ f ih =>
    intro s h
    rw [UART.wait_for_ack_loop]
    split
    · exact ⟨rfl, h⟩
    · split
      · exact ⟨rfl, h⟩
      · next b rest heq =>
        have hb : ∀ m ∈ b, m.msg_type = .ACK := h b (by rw [heq]; simp)
        have hrest : ∀ b2 ∈ rest, ∀ m ∈ b2, m.msg_type = .ACK :=
          fun b2 hb2 => h b2 (by rw [heq]; simp [hb2])
        have hbatch := UART.handle_wait_batch_acks f b
          { s with input := rest } hb
        have hloop := ih (UART.handle_wait_batch f { s with input := rest } b)
          (by rw [hbatch.2]; exact hrest)
        refine ⟨?_, hloop.2⟩
        rw [hloop.1, hbatch.1]

/-- C7 amended.  In SEQ1 every command step is followed by an ACK wait with
a 5-second timeout, and a timeout at any step aborts the sequence with a
failure result — but without transitioning to the error state: when no
frame at all arrives, SEQ1 aborts at the first wait; and whenever only ACK
frames arrive (the pure-timeout scenario), SEQ1 — whichever step it aborts
at, or even completing — emits only its door commands and white-light
commands, never the red container light.  `set_error_state` is reached only
from SEQ1's exception handler, not on a timeout. -/
theorem seq1_timeout_aborts_without_error_state (f : Nat) (s : EngineState)
    (hack : ∀ b ∈ s.input, ∀ m ∈ b, m.msg_type = MessageType.ACK) :
    (s.input = [] → (UART.execute_sequence_1 f s).1 = false) ∧
    ∃ t, (UART.execute_sequence_1 f s).2.output = s.output ++ t ∧
      ∀ mm ∈ t,
        (mm.msg_type = .DOOR_CONTROL ∨
          (mm.msg_type = .LIGHT_MANAGEMENT ∧
            (mm.payload = [1, 0, 0] ∨ mm.payload = [0, 0, 0]))) ∧
        ¬ (mm.msg_type = .LIGHT_MANAGEMENT ∧ mm.payload = [0, 1, 0]) := by
  constructor
  · intro hin
    simp only [UART.execute_sequence_1, UART.unblock_doors, UART.control_door]
    rw [UART.wait_for_ack_loop_no_input f _
      (by simp [UART.begin_wait_for_ack, UART.send_message, hin])]
    rw [if_pos (show (UART.begin_wait_for_ack (UART.send_message s
      MessageType.DOOR_CONTROL [1])).waitingForAck = true from rfl)]
  · have hstep : ∀ (x : EngineState) (ty : MessageType) (pl : List Nat),
        (∀ b ∈ x.input, ∀ m ∈ b, m.msg_type = .ACK) →
        (UART.wait_for_ack_loop f (UART.begin_wait_for_ack
          (UART.send_message x ty pl))).output =
          x.output ++ [⟨ty, (x.message_id_counter + 1) % 100, pl⟩] ∧
        (∀ b ∈ (UART.wait_for_ack_loop f (UART.begin_wait_for_ack
          (UART.send_message x ty pl))).input, ∀ m ∈ b,
          m.msg_type = .ACK) := by
      intro x ty pl hx
      have h := UART.wait_for_ack_loop_acks f
        (UART.begin_wait_for_ack (UART.send_message x ty pl)) hx
      exact ⟨by rw [h.1]; rfl, h.2⟩
    simp only [UART.execute_sequence_1, UART.unblock_doors, UART.block_doors,
      UART.set_cover_light_white, UART.set_container_light_white,
      UART.control_door, UART.control_light]
    obtain ⟨ho1, ha1⟩ := hstep s .DOOR_CONTROL [1] hack
    split
    · simp only [ho1]
      refine ⟨_, rfl, ?_⟩
      intro mm hmm
      simp only [List.mem_singleton] at hmm
      subst hmm
      simp
    · obtain ⟨ho2, ha2⟩ := hstep _ .DOOR_CONTROL [0] ha1
      split
      · simp only [ho2, ho1, List.append_assoc, List.singleton_append]
        refine ⟨_, rfl, ?_⟩
        intro mm hmm
        simp only [List.mem_cons, List.not_mem_nil, or_false] at hmm
        rcases hmm with rfl | rfl <;> simp
      · obtain ⟨ho3, ha3⟩ := hstep _ .LIGHT_MANAGEMENT [1, 0, 0] ha2
        split
        · simp only [ho3, ho2, ho1, List.append_assoc, List.singleton_append]
          refine ⟨_, rfl, ?_⟩
          intro mm hmm
          simp only [List.mem_append, List.mem_cons, List.mem_singleton,
            List.not_mem_nil, or_false] at hmm
          rcases hmm with (rfl | rfl) | rfl <;> simp
        · obtain ⟨ho4, _⟩ := hstep _ .LIGHT_MANAGEMENT [0, 0, 0] ha3
          split
          all_goals
            simp only [ho4, ho3, ho2, ho1, List.append_assoc,
              List.singleton_append]
            refine ⟨_, rfl, ?_⟩
            intro mm hmm
            simp only [List.mem_append, List.mem_cons, List.mem_singleton,
              List.not_mem_nil, or_false] at hmm
            rcases hmm with (rfl | rfl) | rfl | rfl <;> simp

/-- Witness for `seq1_timeout_aborts_without_error_state` with one ACK
batch: the first wait succeeds and the block-doors wait times out, a
mid-sequence timeout. -/
theorem seq1_timeout_aborts_without_error_state_witness :
    ∃ t, (UART.execute_sequence_1 3
        { uartS0 with input := [[ackM]] }).2.output =
      ({ uartS0 with input := [[ackM]] } : EngineState).output ++ t ∧
      ∀ mm ∈ t,
        (mm.msg_type = .DOOR_CONTROL ∨
          (mm.msg_type = .LIGHT_MANAGEMENT ∧
            (mm.payload = [1, 0, 0] ∨ mm.payload = [0, 0, 0]))) ∧
        ¬ (mm.msg_type = .LIGHT_MANAGEMENT ∧ mm.payload = [0, 1, 0]) :=
  (seq1_timeout_aborts_without_error_state 3 { uartS0 with input := [[ackM]] }
    (by decide)).2

namespace QRProcessor

/-- Every Base32 alphabet character is upper-case-fixed and in `[A-Z0-9]`. -/
lemma b32alphabet_chars :
    b32alphabet.all (fun c => (c.toUpper = c) && isHashChar c) = true := by
  decide

/-- Indexing the Base32 alphabet (with the source's default) always lands
in the alphabet. -/
lemma getD_b32alphabet_mem (v : Nat) : b32alphabet.getD v 'A' ∈ b32alphabet := by
  by_cases h : v < b32alphabet.length
  · rw [List.getD_eq_getElem _ _ h]
    exact List.getElem_mem h
  · rw [List.getD_eq_default _ _ (by omega)]
    decide

/-- Length of the 5-bit chunking. -/
lemma chunk5_length : ∀ bs : List Bool, (chunk5 bs).length = (bs.length + 4) / 5 := by
  intro bs
  induction bs using chunk5.induct <;> simp [chunk5, *] <;> omega

/-- Length of the concatenated bit expansion. -/
lemma flatten_byteBits_length (bs : List Nat) :
    ((bs.map byteBits).flatten).length = 8 * bs.length := by
  induction bs with
  | nil => simp
  | cons b bs ih => simp [byteBits, ih]; ring

/-- Shape of `_generate_hmac_hash` for a 32-byte digest: 6 characters, all
from the Base32 alphabet (hence `[A-Z0-9]` and upper-case-fixed). -/
lemma generate_hmac_hash_spec (digest : List Char → List Nat)
    (code : List Char) (hd : (digest code).length = 32) :
    (generate_hmac_hash digest code).length = 6 ∧
    ∀ c ∈ generate_hmac_hash digest code,
      c ∈ b32alphabet ∧ c.toUpper = c ∧ isHashChar c = true := by
  have hchars : ∀ c ∈ (chunk5 ((digest code).map byteBits).flatten).map
      (fun v => b32alphabet.getD v 'A'), c ∈ b32alphabet := by
    intro c hc
    obtain ⟨v, _, hv⟩ := List.mem_map.mp hc
    exact hv ▸ getD_b32alphabet_mem v
  have hlen : ((chunk5 ((digest code).map byteBits).flatten).map
      (fun v => b32alphabet.getD v 'A')).length = 52 := by
    rw [List.length_map, chunk5_length, flatten_byteBits_length, hd]
  have htake : (b32encode (digest code)).take 6 =
      ((chunk5 ((digest code).map byteBits).flatten).map
        (fun v => b32alphabet.getD v 'A')).take 6 := by
    rw [b32encode]
    exact List.take_append_of_le_length (by omega)
  have htakemem : ∀ c ∈ (b32encode (digest code)).take 6, c ∈ b32alphabet := by
    intro c hc
    rw [htake] at hc
    exact hchars c (List.mem_of_mem_take hc)
  have hfix : ∀ c ∈ (b32encode (digest code)).take 6, c.toUpper = c := by
    intro c hc
    have := List.all_eq_true.mp b32alphabet_chars c (htakemem c hc)
    exact of_decide_eq_true (Bool.and_eq_true_iff.mp this).1
  constructor
  · rw [generate_hmac_hash, List.length_map, htake, List.length_take, hlen]
    omega
  · intro c hc
    rw [generate_hmac_hash] at hc
    obtain ⟨c0, hc0, hcu⟩ := List.mem_map.mp hc
    have hc0mem := htakemem c0 hc0
    have hc0fix := hfix c0 hc0
    rw [← hcu, hc0fix]
    have := List.all_eq_true.mp b32alphabet_chars c0 hc0mem
    exact ⟨hc0mem, hc0fix, (Bool.and_eq_true_iff.mp this).2⟩

end QRProcessor

namespace QRProcessor

/-- A case-insensitive literal always matches itself. -/
lemma matchLit_self : ∀ lit cs : List Char, matchLit lit (lit ++ cs) = some cs := by
  intro lit
  induction lit with
  | nil => intro cs; rfl
  | cons l ls ih =>
    intro cs
    simp only [List.cons_append, matchLit, eqCI, decide_eq_true_eq, if_pos rfl]
    exact ih cs

/-- `takeClass` consumes exactly a block of class characters. -/
lemma takeClass_exact (p : Char → Bool) :
    ∀ l r : List Char, (∀ c ∈ l, p c = true) →
      takeClass p l.length (l ++ r) = some (l, r) := by
  intro l
  induction l with
  | nil => intro r _; rfl
  | cons c cs ih =>
    intro r hall
    simp only [List.cons_append, List.length_cons, takeClass,
      hall c (List.mem_cons_self _ _), if_pos]
    rw [show cs.append r = cs ++ r from rfl,
      ih r fun x hx => hall x (List.mem_cons_of_mem _ hx)]
    rfl

/-- The anchored pattern tail matches the canonical URL, returning the two
upper-cased groups. -/
lemma parseTail_canonical (code hash : List Char) (hc6 : code.length = 6)
    (hcode : ∀ c ∈ code, isCodeChar c = true) (hh6 : hash.length = 6)
    (hhash : ∀ c ∈ hash, isHashChar c = true) :
    parseTail (construct_url code hash) =
      some (code.map Char.toUpper, hash.map Char.toUpper) := by
  have hshape : construct_url code hash =
      httpLit ++ ('s' :: (schemeLit ++ (code ++ '/' :: hash))) := by
    simp [construct_url]
  have hs : eqCI 's' 's' = true := by decide
  have hcodeTake : takeClass isCodeChar 6 (code ++ '/' :: hash) =
      some (code, '/' :: hash) := by
    rw [← hc6]
    exact takeClass_exact isCodeChar code ('/' :: hash) hcode
  have hhashTake : takeClass isHashChar 6 hash = some (hash, []) := by
    have h := takeClass_exact isHashChar hash [] hhash
    rw [List.append_nil] at h
    rw [← hh6]
    exact h
  simp only [hshape, parseTail, matchLit_self, hs, if_pos, hcodeTake, hhashTake]

/-- The compiled pattern matches the canonical URL (empty `.*` prefix). -/
lemma urlMatch_canonical (code hash : List Char) (hc6 : code.length = 6)
    (hcode : ∀ c ∈ code, isCodeChar c = true) (hh6 : hash.length = 6)
    (hhash : ∀ c ∈ hash, isHashChar c = true) :
    urlMatch (construct_url code hash) =
      some (code.map Char.toUpper, hash.map Char.toUpper) := by
  have hlen : (construct_url code hash).length = 33 := by
    simp [construct_url, httpLit, schemeLit, hc6, hh6]
  unfold urlMatch
  simp only [hlen]
  rw [if_pos (by norm_num)]
  rw [show 33 - 33 = 0 from rfl, List.drop_zero,
    parseTail_canonical code hash hc6 hcode hh6 hhash]
  rfl

/-- Dropping leading whitespace does nothing when the head is not
whitespace. -/
lemma dropWhile_eq_self_of_head (p : Char → Bool) (l : List Char)
    (h : ∀ c, l.head? = some c → p c = false) : l.dropWhile p = l := by
  cases l with
  | nil => rfl
  | cons c cs => simp [List.dropWhile, h c rfl]

/-- `[A-Z0-9]` characters are not stripped as whitespace. -/
lemma isHashChar_not_space (c : Char) (h : isHashChar c = true) :
    isPySpace c = false := by
  by_cases hs : isPySpace c = true
  · exfalso
    have hmem : c ∈ pySpaceChars := List.mem_of_elem_eq_true hs
    simp only [pySpaceChars, List.mem_cons, List.not_mem_nil, or_false] at hmem
    rcases hmem with rfl | rfl | rfl | rfl | rfl | rfl <;>
      exact absurd h (by decide)
  · exact Bool.eq_false_iff.mpr fun hc => hs hc

/-- `strip()` leaves the canonical URL unchanged: it starts with `h` and
ends with a hash character. -/
lemma pyStrip_canonical (code hash : List Char) (hh6 : hash.length = 6)
    (hhash : ∀ c ∈ hash, isHashChar c = true) :
    pyStrip (construct_url code hash) = construct_url code hash := by
  have hne : hash ≠ [] := by
    intro h
    rw [h] at hh6
    simp at hh6
  have h1 : (construct_url code hash).dropWhile isPySpace =
      construct_url code hash := by
    refine dropWhile_eq_self_of_head _ _ ?_
    intro c hc
    have hch : 'h' = c := by simpa [construct_url, httpLit] using hc
    subst hch
    decide
  have hlast : (construct_url code hash).getLast? = hash.getLast? := by
    rw [show construct_url code hash =
      (httpLit ++ 's' :: (schemeLit ++ (code ++ ['/']))) ++ hash by
        simp [construct_url]]
    exact List.getLast?_append_of_ne_nil _ hne
  have h2 : (construct_url code hash).reverse.dropWhile isPySpace =
      (construct_url code hash).reverse := by
    refine dropWhile_eq_self_of_head _ _ ?_
    intro c hc
    rw [List.head?_reverse, hlast] at hc
    have hmem : c ∈ hash := List.mem_of_mem_getLast? hc
    exact isHashChar_not_space c (hhash c hmem)
  unfold pyStrip
  rw [h1, h2, List.reverse_reverse]

end QRProcessor

/-- The claim's code alphabet consists of upper-case-fixed `isCodeChar`
characters. -/
lemma QRProcessor.upperCodeAlphabet_chars :
    QRProcessor.upperCodeAlphabet.all
      (fun c => QRProcessor.isCodeChar c && (c.toUpper = c)) = true := by
  decide

/-- C4.  For every 6-character CODE over `A-HJ-NP-Z2-9` and any 32-byte
HMAC-SHA256 digest function: processing
`https://paka.eco/QR/<CODE>/<HASH>` with HASH the first 6 characters of the
upper-cased Base32 digest encoding yields VALID with `container_id = CODE`
(the code, not the QR string); while any well-formed 6-character hash that
differs from the expected one (after the parser's upper-casing) is
classified as a fraud attempt. -/
theorem qr_url_validator (digest : List Char → List Nat) (code : List Char)
    (hc6 : code.length = 6)
    (halpha : ∀ c ∈ code, c ∈ QRProcessor.upperCodeAlphabet)
    (hd : (digest code).length = 32) :
    QRProcessor.process_qr_code digest
      (QRProcessor.construct_url code
        (QRProcessor.generate_hmac_hash digest code)) =
      ⟨.VALID, some code, false⟩ ∧
    ∀ h, h.length = 6 → (∀ c ∈ h, QRProcessor.isHashChar c = true) →
      h.map Char.toUpper ≠ QRProcessor.generate_hmac_hash digest code →
      (QRProcessor.process_qr_code digest
        (QRProcessor.construct_url code h)).validation = .FRAUD_ATTEMPT := by
  obtain ⟨hglen, hgmem⟩ := QRProcessor.generate_hmac_hash_spec digest code hd
  have hcode : ∀ c ∈ code, QRProcessor.isCodeChar c = true := by
    intro c hc
    have := List.all_eq_true.mp QRProcessor.upperCodeAlphabet_chars c (halpha c hc)
    exact (Bool.and_eq_true_iff.mp this).1
  have hcodeUp : code.map Char.toUpper = code := by
    have hfix : ∀ c ∈ code, c.toUpper = c := by
      intro c hc
      have := List.all_eq_true.mp QRProcessor.upperCodeAlphabet_chars c (halpha c hc)
      exact of_decide_eq_true (Bool.and_eq_true_iff.mp this).2
    rw [List.map_congr_left hfix, List.map_id']
  have hgh : ∀ c ∈ QRProcessor.generate_hmac_hash digest code,
      QRProcessor.isHashChar c = true := fun c hc => (hgmem c hc).2.2
  have hgUp : (QRProcessor.generate_hmac_hash digest code).map Char.toUpper =
      QRProcessor.generate_hmac_hash digest code := by
    rw [List.map_congr_left fun c hc => (hgmem c hc).2.1, List.map_id']
  constructor
  · have hp := QRProcessor.pyStrip_canonical code
      (QRProcessor.generate_hmac_hash digest code) hglen hgh
    have hu := QRProcessor.urlMatch_canonical code
      (QRProcessor.generate_hmac_hash digest code) hc6 hcode hglen hgh
    simp only [QRProcessor.process_qr_code, hp, hu, hgUp, hcodeUp]
    simp
  · intro h hl6 hh hne
    have hp := QRProcessor.pyStrip_canonical code h hl6 hh
    have hu := QRProcessor.urlMatch_canonical code h hc6 hcode hl6 hh
    simp only [QRProcessor.process_qr_code, hp, hu, hcodeUp]
    rw [if_pos hne]

/-- Witness for `qr_url_validator`: code `ABCDEF` with a concrete 32-byte
digest; flipping the hash to `000000` is rejected as fraud. -/
theorem qr_url_validator_witness :
    QRProcessor.process_qr_code (fun _ => List.range 32)
      (QRProcessor.construct_url ['A', 'B', 'C', 'D', 'E', 'F']
        (QRProcessor.generate_hmac_hash (fun _ => List.range 32)
          ['A', 'B', 'C', 'D', 'E', 'F'])) =
      ⟨.VALID, some ['A', 'B', 'C', 'D', 'E', 'F'], false⟩ ∧
    (QRProcessor.process_qr_code (fun _ => List.range 32)
      (QRProcessor.construct_url ['A', 'B', 'C', 'D', 'E', 'F']
        ['0', '0', '0', '0', '0', '0'])).validation = .FRAUD_ATTEMPT := by
  have h := qr_url_validator (fun _ => List.range 32)
    ['A', 'B', 'C', 'D', 'E', 'F'] (by decide) (by decide) (by decide)
  exact ⟨h.1, h.2 ['0', '0', '0', '0', '0', '0'] (by decide) (by decide)
    (by decide)⟩
